import Mathlib

/-!
Shallow embedding of the AO process message-handling core found in
`cli/templates/rust/src/lib.rs` of the harlequin-toolkit repository.

The Rust code keeps one global `STATE : Mutex<HashMap<String, String>>`.
Here the store is threaded explicitly: every handler takes the store and
returns the (possibly updated) store next to its response.  The mutex is
modelled as always acquired successfully (lock poisoning is a dynamic
property of the Rust runtime; every claim below quantifies over arbitrary
handler failure strings where lock failure matters).  `HashMap` is modelled
as `AList` (an association list with no duplicate keys), which has exactly
the lookup/insert/erase/length semantics the code relies on; iteration
order, which `HashMap` leaves unspecified, is the entry-list order and no
theorem depends on it.  Rust `str::len` is UTF-8 byte length, modelled by
`String.utf8ByteSize`.
-/

namespace Harlequin

/-- The process-wide key/value store (`STATE` in the Rust source): a finite
map from `String` to `String`, modelled as a duplicate-free association
list. -/
abbrev Store : Type := AList (fun _ : String => String)

/-- Rust `char::is_alphanumeric` (Unicode `Alphabetic` or category `N`).
The table below is exact for every code point up to U+00FF (ASCII letters
and digits, `ª µ º ² ³ ¹ ¼ ½ ¾`, and the Latin-1 letters U+00C0–U+00FF
minus `×` and `÷`); no character above U+00FF occurs in this
development. -/
def rustIsAlphanumeric (c : Char) : Bool :=
  c.isAlpha || c.isDigit ||
  decide (c.toNat = 0xAA) || decide (c.toNat = 0xB5) || decide (c.toNat = 0xBA) ||
  (decide (0xB2 ≤ c.toNat) && decide (c.toNat ≤ 0xB3)) || decide (c.toNat = 0xB9) ||
  (decide (0xBC ≤ c.toNat) && decide (c.toNat ≤ 0xBE)) ||
  (decide (0xC0 ≤ c.toNat) && decide (c.toNat ≤ 0xFF) &&
    !decide (c.toNat = 0xD7) && !decide (c.toNat = 0xF7))

namespace ProcessState

/-- `ProcessState::set` (lib.rs:83-95): rejects an empty or over-64-byte
key and an over-1000-byte value, otherwise inserts/overwrites the entry. -/
def set (st : Store) (key value : String) : Except String Store :=
  if key.utf8ByteSize = 0 ∨ 64 < key.utf8ByteSize then
    .error "Key must be between 1 and 64 characters"
  else if 1000 < value.utf8ByteSize then
    .error "Value must be less than 1000 characters"
  else
    .ok (st.insert key value)

/-- `ProcessState::get` (lib.rs:97-100): current value of `key`, `none` if
absent. -/
def get (st : Store) (key : String) : Option String :=
  st.lookup key

/-- `ProcessState::list` (lib.rs:102-105): a snapshot copy of the map. -/
def list (st : Store) : Store :=
  st

/-- `ProcessState::remove` (lib.rs:107-110): whether the key was present,
together with the store after removal. -/
def remove (st : Store) (key : String) : Bool × Store :=
  ((st.lookup key).isSome, st.erase key)

/-- `ProcessState::clear` (lib.rs:112-116): empties the map. -/
def clear (_ : Store) : Store :=
  ∅

/-- `ProcessState::size` (lib.rs:118-121): the entry count. -/
def size (st : Store) : Nat :=
  st.entries.length

end ProcessState

/-- The `AOMessage` struct (lib.rs:19-41).  `Tags` is a `HashMap` in Rust,
modelled as an association list read through `List.lookup`; the Rust field
`from` is a Lean keyword, hence `from_`. -/
structure AOMessage where
  id : Option String
  from_ : Option String
  owner : Option String
  target : Option String
  anchor : Option String
  data : Option String
  tags : Option (List (String × String))
  timestamp : Option String
  block_height : Option String
  hash_chain : Option String
deriving DecidableEq

/-- `msg.tags.as_ref().and_then(|tags| tags.get(k))`, the tag-extraction
pattern every handler uses. -/
def AOMessage.tag (msg : AOMessage) (k : String) : Option String :=
  msg.tags.bind (fun ts => ts.lookup k)

/-- The `AOResponse` struct (lib.rs:44-54): fixed `target`/`action`/`data`
plus the flattened `extra_fields` map. -/
structure AOResponse where
  target : String
  action : String
  data : String
  extra_fields : List (String × String)
deriving DecidableEq

/-- `AOResponse::new` (lib.rs:57-64). -/
def AOResponse.new (target action data : String) : AOResponse :=
  ⟨target, action, data, []⟩

/-- `AOResponse::with_field` (lib.rs:66-69): `HashMap::insert` on
`extra_fields`, i.e. overwrite any previous binding of `key`. -/
def AOResponse.with_field (r : AOResponse) (key value : String) : AOResponse :=
  { r with extra_fields := (key, value) :: r.extra_fields.filter (fun p => p.1 != key) }

/-- `AOResponse::error` (lib.rs:71-73). -/
def AOResponse.error (target message : String) : AOResponse :=
  AOResponse.new target "Error" message

/-- Minimal JSON string encoder standing in for `serde_json::to_string` on
a `String` (escapes quote and backslash; other escapes never arise in this
development). -/
def jsonString (s : String) : String :=
  "\"" ++ String.join (s.data.map fun c =>
    if c = '"' then "\\\"" else if c = '\\' then "\\\\" else String.singleton c) ++ "\""

/-- `serde_json::to_string` on the store, as used by `handle_list`.
`HashMap` iteration order is unspecified in Rust; the model uses entry-list
order, and no theorem depends on it. -/
def storeToJson (st : Store) : String :=
  "\x7b" ++ String.intercalate ","
    (st.entries.map (fun e => jsonString e.1 ++ ":" ++ jsonString e.2)) ++ "\x7d"

/-- `handle_info` (lib.rs:125-135). -/
def handle_info (msg : AOMessage) (st : Store) : Except String (AOResponse × Store) :=
  let from_ := msg.from_.getD "unknown"
  let state_size := ProcessState.size st
  let data := "Hello from AO Process (Rust)! State entries: " ++ toString state_size
  .ok (AOResponse.new from_ "Info-Response" data, st)

/-- `handle_set` (lib.rs:137-156): requires the `Key` tag and `data`,
returns an Error *response* on bad key charset, then defers to
`ProcessState::set` (whose failures propagate as handler failures). -/
def handle_set (msg : AOMessage) (st : Store) : Except String (AOResponse × Store) :=
  let from_ := msg.from_.getD "unknown"
  match msg.tag "Key" with
  | none => .error "Key is required"
  | some key =>
    match msg.data with
    | none => .error "Value is required"
    | some value =>
      if !(key.data.all fun c => rustIsAlphanumeric c || c == '_' || c == '-') then
        .ok (AOResponse.error from_
          "Invalid key format. Use alphanumeric characters, underscores, and hyphens only", st)
      else
        match ProcessState.set st key value with
        | .error e => .error e
        | .ok st2 =>
          .ok (AOResponse.new from_ "Set-Response"
            ("Successfully set " ++ key ++ " to " ++ value), st2)

/-- `handle_get` (lib.rs:158-171): requires the `Key` tag, substitutes
`"Not found"` for an absent value, echoes the key in `extra_fields`. -/
def handle_get (msg : AOMessage) (st : Store) : Except String (AOResponse × Store) :=
  let from_ := msg.from_.getD "unknown"
  match msg.tag "Key" with
  | none => .error "Key is required"
  | some key =>
    let value := (ProcessState.get st key).getD "Not found"
    .ok ((AOResponse.new from_ "Get-Response" value).with_field "Key" key, st)

/-- `handle_list` (lib.rs:173-181).  `serde_json` cannot fail on a
`HashMap<String, String>`, so the model always succeeds. -/
def handle_list (msg : AOMessage) (st : Store) : Except String (AOResponse × Store) :=
  let from_ := msg.from_.getD "unknown"
  .ok (AOResponse.new from_ "List-Response" (storeToJson (ProcessState.list st)), st)

/-- `handle_remove` (lib.rs:183-200): requires the `Key` tag; the response
text depends on whether the key was present. -/
def handle_remove (msg : AOMessage) (st : Store) : Except String (AOResponse × Store) :=
  let from_ := msg.from_.getD "unknown"
  match msg.tag "Key" with
  | none => .error "Key is required"
  | some key =>
    let r := ProcessState.remove st key
    let data := if r.1 then "Successfully removed " ++ key else "Key " ++ key ++ " not found"
    .ok (AOResponse.new from_ "Remove-Response" data, r.2)

/-- `handle_clear` (lib.rs:202-208). -/
def handle_clear (msg : AOMessage) (st : Store) : Except String (AOResponse × Store) :=
  let from_ := msg.from_.getD "unknown"
  .ok (AOResponse.new from_ "Clear-Response" "State cleared successfully", ProcessState.clear st)

/-- `handle_message` (lib.rs:211-240): extract the `Action` tag (failure
`"Action is required"` if absent), route on its value, and synthesize the
unknown-action Error response in the catch-all arm.  The Rust `match` on
`action.as_str()` is an equality chain on strings. -/
def handle_message (msg : AOMessage) (st : Store) : Except String (AOResponse × Store) :=
  match msg.tag "Action" with
  | none => .error "Action is required"
  | some action =>
    if action = "Info" then handle_info msg st
    else if action = "Set" then handle_set msg st
    else if action = "Get" then handle_get msg st
    else if action = "List" then handle_list msg st
    else if action = "Remove" then handle_remove msg st
    else if action = "Clear" then handle_clear msg st
    else
      .ok (AOResponse.error (msg.from_.getD "unknown")
        ("Unknown action: " ++ action ++ ". Available actions: Info, Set, Get, List, Remove, Clear"), st)

/-- The failure-conversion layer of `handle` (lib.rs:261-267), applied to
an already-deserialized message: a `handle_message` failure is converted
into an Error response addressed to the sender, and the store is left
unchanged (every handler failure in the source occurs before any state
mutation). -/
def dispatch (msg : AOMessage) (st : Store) : AOResponse × Store :=
  match handle_message msg st with
  | .ok r => r
  | .error e => (AOResponse.error (msg.from_.getD "unknown") e, st)

/-- Character class `[A-Za-z0-9_-]` written in the spec.  This is the
spec's wording, kept separate from `rustIsAlphanumeric` (the code's test)
so the two can be compared. -/
def specKeyCharOk (c : Char) : Bool :=
  c.isAlpha || c.isDigit || c == '_' || c == '-'

/-- Store-mutating operations available through the dispatcher, used to
state the "interleaved operations on other keys" part of the read-your-
writes claim. -/
inductive StoreOp : Type
  | setOp (k v : String)
  | removeOp (k : String)
  | getOp (k : String)
deriving DecidableEq

/-- The key an operation touches. -/
def StoreOp.key : StoreOp → String
  | .setOp k _ => k
  | .removeOp k => k
  | .getOp k => k

/-- Effect of one operation on the store: a failing `set` leaves the store
as it was (exactly as in the source, where the error return precedes the
insertion); `get` reads only. -/
def StoreOp.apply (st : Store) : StoreOp → Store
  | .setOp k v =>
    match ProcessState.set st k v with
    | .ok st2 => st2
    | .error _ => st
  | .removeOp k => (ProcessState.remove st k).2
  | .getOp _ => st

/-- C1: for every deserialized message the dispatcher is total — it always
returns a well-formed response.  A successful handler result is passed
through unchanged, and every handler-level failure (missing Action tag,
missing Key tag, missing data, store validation failure) is converted into
an Error response carrying the failure text, never surfaced as a failure
result. -/
theorem C1_dispatcher_total (msg : AOMessage) (st : Store) :
    (∀ r, handle_message msg st = .ok r → dispatch msg st = r) ∧
    (∀ e, handle_message msg st = .error e →
      dispatch msg st = (AOResponse.error (msg.from_.getD "unknown") e, st) ∧
      (dispatch msg st).1.action = "Error") := by
  constructor
  · intro r h
    unfold dispatch
    rw [h]
  · intro e h
    unfold dispatch
    rw [h]
    exact ⟨rfl, rfl⟩

/-- Witness for C1 at a concrete message with no tags: the "Action is
required" failure is converted into an Error response. -/
theorem C1_dispatcher_total_witness :
    dispatch ⟨none, none, none, none, none, none, none, none, none, none⟩ ∅ =
      (AOResponse.error "unknown" "Action is required", (∅ : Store)) :=
  ((C1_dispatcher_total ⟨none, none, none, none, none, none, none, none, none, none⟩ ∅).2
    "Action is required" rfl).1

/-- C7: for every message lacking an `Action` tag — no tags map at all, or
a tags map without an "Action" entry — dispatch yields an Error response
whose data contains (indeed equals) "Action is required". -/
theorem C7_missing_action_error (msg : AOMessage) (st : Store)
    (h : msg.tags = none ∨ ∃ ts, msg.tags = some ts ∧ ts.lookup "Action" = none) :
    dispatch msg st = (AOResponse.error (msg.from_.getD "unknown") "Action is required", st) ∧
    (dispatch msg st).1.action = "Error" ∧
    (dispatch msg st).1.data = "Action is required" := by
  have ha : msg.tag "Action" = none := by
    rcases h with h | ⟨ts, hts, hl⟩
    · simp [AOMessage.tag, h]
    · simp [AOMessage.tag, hts, hl]
  refine ⟨?_, ?_, ?_⟩ <;>
    simp [dispatch, handle_message, ha, AOResponse.error, AOResponse.new]

/-- Witness for C7 at the all-`none` message. -/
theorem C7_missing_action_error_witness :
    dispatch ⟨none, none, none, none, none, none, none, none, none, none⟩ ∅ =
      (AOResponse.error "unknown" "Action is required", (∅ : Store)) :=
  (C7_missing_action_error ⟨none, none, none, none, none, none, none, none, none, none⟩
    ∅ (Or.inl rfl)).1

/-- C6: for every message whose `Action` tag is present but matches none of
Info, Set, Get, List, Remove, Clear, dispatch yields an Error response
(action "Error", target the message sender or "unknown") whose data names
the unknown action and enumerates the six known actions. -/
theorem C6_unknown_action_error (msg : AOMessage) (st : Store) (action : String)
    (ha : msg.tag "Action" = some action)
    (h1 : action ≠ "Info") (h2 : action ≠ "Set") (h3 : action ≠ "Get")
    (h4 : action ≠ "List") (h5 : action ≠ "Remove") (h6 : action ≠ "Clear") :
    dispatch msg st =
      (AOResponse.error (msg.from_.getD "unknown")
        ("Unknown action: " ++ action ++
          ". Available actions: Info, Set, Get, List, Remove, Clear"), st) := by
  unfold dispatch handle_message
  rw [ha]
  dsimp only
  rw [if_neg h1, if_neg h2, if_neg h3, if_neg h4, if_neg h5, if_neg h6]

/-- Witness for C6 at the unknown action "Foo". -/
theorem C6_unknown_action_error_witness :
    dispatch ⟨none, some "s", none, none, none, none,
        some [("Action", "Foo")], none, none, none⟩ ∅ =
      (AOResponse.error "s"
        ("Unknown action: " ++ "Foo" ++
          ". Available actions: Info, Set, Get, List, Remove, Clear"), (∅ : Store)) :=
  C6_unknown_action_error ⟨none, some "s", none, none, none, none,
      some [("Action", "Foo")], none, none, none⟩ ∅ "Foo" rfl (by decide) (by decide) (by decide)
    (by decide) (by decide) (by decide)

/-- C5: for every Get message with a `Key` tag the handler returns a
Get-Response that echoes the requested key in the extension map, and when
the key is absent from the store the data degrades to the literal
"Not found". -/
theorem C5_get_not_found_and_key_echo (msg : AOMessage) (st : Store) (key : String)
    (hk : msg.tag "Key" = some key) :
    handle_get msg st =
      .ok ((AOResponse.new (msg.from_.getD "unknown") "Get-Response"
        ((ProcessState.get st key).getD "Not found")).with_field "Key" key, st) ∧
    ((AOResponse.new (msg.from_.getD "unknown") "Get-Response"
        ((ProcessState.get st key).getD "Not found")).with_field "Key" key).action
      = "Get-Response" ∧
    ((AOResponse.new (msg.from_.getD "unknown") "Get-Response"
        ((ProcessState.get st key).getD "Not found")).with_field "Key" key).extra_fields.lookup
      "Key" = some key ∧
    (ProcessState.get st key = none →
      (ProcessState.get st key).getD "Not found" = "Not found") := by
  refine ⟨?_, rfl, ?_, ?_⟩
  · simp [handle_get, hk]
  · simp [AOResponse.with_field, AOResponse.new, List.lookup]
  · intro h
    rw [h]
    rfl

/-- Witness for C5: a Get for the never-set key "k" on the empty store. -/
theorem C5_get_witness :
    handle_get ⟨none, some "s", none, none, none, none,
        some [("Action", "Get"), ("Key", "k")], none, none, none⟩ ∅ =
      .ok ((AOResponse.new "s" "Get-Response"
        ((ProcessState.get (∅ : Store) "k").getD "Not found")).with_field "Key" "k",
        (∅ : Store)) :=
  (C5_get_not_found_and_key_echo ⟨none, some "s", none, none, none, none,
      some [("Action", "Get"), ("Key", "k")], none, none, none⟩ ∅ "k" rfl).1


/-- C2 counterexample: the key "é" consists of a character outside
`[A-Za-z0-9_-]` (witnessed via `specKeyCharOk`), yet `handle_set` accepts
it — Rust's `char::is_alphanumeric` is Unicode-wide — returning a
Set-Response and inserting the entry into the previously empty store.  The
claim as stated is therefore false. -/
theorem C2_counterexample :
    specKeyCharOk 'é' = false ∧ 'é' ∈ "é".data ∧
    ProcessState.get (∅ : Store) "é" = none ∧
    (handle_set ⟨none, some "s", none, none, none, some "v",
        some [("Key", "é")], none, none, none⟩ ∅).toOption.map
      (fun p => (p.1.action, ProcessState.get p.2 "é")) =
      some ("Set-Response", some "v") :=
  ⟨by decide, by decide, by decide, by decide⟩

/-- C2 (amended): for every key whose UTF-8 byte length is 0 or exceeds
64, or that contains a character that is neither alphanumeric in the sense
of Rust `char::is_alphanumeric` nor `_` nor `-`, and for every value, the
Set operation is rejected — as a handler-level failure or as a format
Error response — and the store mapping is unchanged. -/
theorem C2_set_rejected_amended (msg : AOMessage) (st : Store) (key value : String)
    (hk : msg.tag "Key" = some key) (hv : msg.data = some value)
    (hbad : key.utf8ByteSize = 0 ∨ 64 < key.utf8ByteSize ∨
      ∃ c ∈ key.data, rustIsAlphanumeric c = false ∧ c ≠ '_' ∧ c ≠ '-') :
    ∀ r st2, handle_set msg st = .ok (r, st2) → r.action = "Error" ∧ st2 = st := by
  intro r st2 hok
  unfold handle_set at hok
  rw [hk, hv] at hok
  dsimp only at hok
  by_cases hall : (key.data.all fun c => rustIsAlphanumeric c || c == '_' || c == '-') = true
  · have hlen : key.utf8ByteSize = 0 ∨ 64 < key.utf8ByteSize := by
      rcases hbad with h | h | ⟨c, hc, hf, hu, hh⟩
      · exact Or.inl h
      · exact Or.inr h
      · exfalso
        have hx := List.all_eq_true.mp hall c hc
        simp [hf] at hx
        rcases hx with hx | hx
        · exact hu hx
        · exact hh hx
    rw [if_neg (by simp [hall])] at hok
    unfold ProcessState.set at hok
    rw [if_pos hlen] at hok
    cases hok
  · rw [if_pos (by simp [hall])] at hok
    simp only [Except.ok.injEq, Prod.mk.injEq] at hok
    obtain ⟨h1, h2⟩ := hok
    subst h1
    subst h2
    exact ⟨rfl, rfl⟩

/-- Witness for amended C2: the key "a b" (space is not alphanumeric) is
answered by the format Error response and the store stays empty. -/
theorem C2_set_rejected_amended_witness :
    (AOResponse.error "s"
        "Invalid key format. Use alphanumeric characters, underscores, and hyphens only").action
      = "Error" ∧ (∅ : Store) = (∅ : Store) :=
  C2_set_rejected_amended
    ⟨none, some "s", none, none, none, some "v", some [("Key", "a b")], none, none, none⟩
    ∅ "a b" "v" rfl rfl
    (Or.inr (Or.inr ⟨' ', by decide, by decide, by decide, by decide⟩))
    _ _ rfl

/-- Helper for C3: a run of store operations that never touches `key`
preserves the value stored at `key`. -/
lemma get_after_other_key_ops (key value : String) (ops : List StoreOp) :
    ∀ st2 : Store, ProcessState.get st2 key = some value →
      (∀ op ∈ ops, op.key ≠ key) →
      ProcessState.get (ops.foldl StoreOp.apply st2) key = some value := by
  induction ops with
  | nil =>
    intro st2 hbase _
    simpa using hbase
  | cons op rest ih =>
    intro st2 hbase hops
    simp only [List.foldl_cons]
    refine ih (StoreOp.apply st2 op) ?_ (fun o ho => hops o (List.mem_cons_of_mem _ ho))
    have hne : key ≠ op.key := fun hc => (hops op (List.mem_cons_self _ _)) hc.symm
    cases op with
    | setOp k v =>
      cases hset2 : ProcessState.set st2 k v with
      | error e =>
        show ProcessState.get (match ProcessState.set st2 k v with
          | .ok stN => stN
          | .error _ => st2) key = some value
        rw [hset2]
        exact hbase
      | ok stN =>
        show ProcessState.get (match ProcessState.set st2 k v with
          | .ok stN => stN
          | .error _ => st2) key = some value
        rw [hset2]
        unfold ProcessState.set at hset2
        split at hset2
        · cases hset2
        · split at hset2
          · cases hset2
          · simp only [Except.ok.injEq] at hset2
            subst hset2
            exact (AList.lookup_insert_ne hne).trans hbase
    | removeOp k =>
      exact (AList.lookup_erase_ne hne).trans hbase
    | getOp k => exact hbase

/-- C3: for every key and value accepted by Set, an immediately following
Get of the same key — with any interleaved operations on other keys —
returns exactly the value most recently Set for that key. -/
theorem C3_get_returns_last_set (st st2 : Store) (key value : String)
    (hset : ProcessState.set st key value = .ok st2)
    (ops : List StoreOp) (hops : ∀ op ∈ ops, op.key ≠ key) :
    ProcessState.get (ops.foldl StoreOp.apply st2) key = some value := by
  have hbase : ProcessState.get st2 key = some value := by
    unfold ProcessState.set at hset
    split at hset
    · cases hset
    · split at hset
      · cases hset
      · simp only [Except.ok.injEq] at hset
        subst hset
        exact AList.lookup_insert st
  exact get_after_other_key_ops key value ops st2 hbase hops

/-- Witness for C3: set "k" to "v", then set "b" and remove "c". -/
theorem C3_get_returns_last_set_witness :
    ProcessState.get
      (List.foldl StoreOp.apply ((∅ : Store).insert "k" "v")
        [StoreOp.setOp "b" "2", StoreOp.removeOp "c"]) "k" = some "v" :=
  C3_get_returns_last_set ∅ ((∅ : Store).insert "k" "v") "k" "v" rfl
    [StoreOp.setOp "b" "2", StoreOp.removeOp "c"] (by decide)


/-- Helper: every character occupies at least one UTF-8 byte. -/
lemma utf8ByteSize_go_ge (l : List Char) : l.length ≤ String.utf8ByteSize.go l := by
  induction l with
  | nil => simp [String.utf8ByteSize.go]
  | cons c cs ih =>
    have hc := Char.utf8Size_pos c
    simp only [List.length_cons, String.utf8ByteSize.go]
    omega

/-- Helper: the character count of a string never exceeds its UTF-8 byte
count (Rust `str::len`). -/
lemma length_le_utf8ByteSize (s : String) : s.length ≤ s.utf8ByteSize := by
  cases s with
  | mk l => exact utf8ByteSize_go_ge l

/-- C4: for every key and every value longer than 1000 characters, the
store-level set operation fails — with the InvalidValue-style message when
the key itself is valid — and the store mapping is unchanged. -/
theorem C4_long_value_rejected (st : Store) (key value : String)
    (hv : 1000 < value.length) :
    (∃ e, ProcessState.set st key value = .error e) ∧
    (¬(key.utf8ByteSize = 0 ∨ 64 < key.utf8ByteSize) →
      ProcessState.set st key value = .error "Value must be less than 1000 characters") ∧
    StoreOp.apply st (StoreOp.setOp key value) = st := by
  have hb : 1000 < value.utf8ByteSize := lt_of_lt_of_le hv (length_le_utf8ByteSize value)
  refine ⟨?_, ?_, ?_⟩
  · by_cases hkey : key.utf8ByteSize = 0 ∨ 64 < key.utf8ByteSize
    · exact ⟨"Key must be between 1 and 64 characters", by simp [ProcessState.set, hkey]⟩
    · exact ⟨"Value must be less than 1000 characters", by simp [ProcessState.set, hkey, hb]⟩
  · intro hkey
    simp [ProcessState.set, hkey, hb]
  · by_cases hkey : key.utf8ByteSize = 0 ∨ 64 < key.utf8ByteSize
    · simp [StoreOp.apply, ProcessState.set, hkey]
    · simp [StoreOp.apply, ProcessState.set, hkey, hb]

/-- Witness for C4 at a 1001-character value. -/
theorem C4_long_value_rejected_witness :
    ProcessState.set (∅ : Store) "k" (String.mk (List.replicate 1001 'a')) =
      .error "Value must be less than 1000 characters" ∧
    StoreOp.apply (∅ : Store) (StoreOp.setOp "k" (String.mk (List.replicate 1001 'a'))) =
      (∅ : Store) := by
  have h := C4_long_value_rejected ∅ "k" (String.mk (List.replicate 1001 'a'))
    (by
      have hlen : (String.mk (List.replicate 1001 'a')).length =
          (List.replicate 1001 'a').length := rfl
      rw [hlen, List.length_replicate]
      omega)
  exact ⟨h.2.1 (by decide), h.2.2⟩

/-- Helper for C8: erasing an absent key leaves the entry count
unchanged. -/
lemma size_erase_of_not_mem (st : Store) (key : String) (h : st.lookup key = none) :
    ProcessState.size (st.erase key) = ProcessState.size st := by
  have hmem : key ∉ st.entries.keys := List.dlookup_eq_none.mp h
  show (List.kerase key st.entries).length = st.entries.length
  rw [List.kerase_of_not_mem_keys hmem]

/-- Helper for C8: erasing a present key decreases the entry count by
exactly one. -/
lemma size_erase_of_mem (st : Store) (key : String) (h : (st.lookup key).isSome = true) :
    ProcessState.size (st.erase key) + 1 = ProcessState.size st := by
  have hmem : key ∈ st.entries.keys := List.dlookup_isSome.mp h
  obtain ⟨b, l₁, l₂, hnl, hl, hker⟩ := List.exists_of_kerase hmem
  show (List.kerase key st.entries).length + 1 = st.entries.length
  rw [hker, hl]
  simp [List.length_append]
  omega

/-- C8: removing an absent key reports `false` and leaves the store size
unchanged; removing a present key reports `true` and decreases the size by
exactly one; and the Remove handler's response text differs between the
two cases. -/
theorem C8_remove_semantics (st : Store) (key : String) (msg : AOMessage)
    (hk : msg.tag "Key" = some key) :
    (ProcessState.get st key = none →
      (ProcessState.remove st key).1 = false ∧
      ProcessState.size (ProcessState.remove st key).2 = ProcessState.size st) ∧
    (∀ v, ProcessState.get st key = some v →
      (ProcessState.remove st key).1 = true ∧
      ProcessState.size (ProcessState.remove st key).2 + 1 = ProcessState.size st) ∧
    handle_remove msg st = .ok (AOResponse.new (msg.from_.getD "unknown") "Remove-Response"
      (if (ProcessState.remove st key).1 then "Successfully removed " ++ key
       else "Key " ++ key ++ " not found"), (ProcessState.remove st key).2) ∧
    "Successfully removed " ++ key ≠ "Key " ++ key ++ " not found" := by
  refine ⟨?_, ?_, ?_, ?_⟩
  · intro h
    refine ⟨by simp [ProcessState.remove, ProcessState.get] at *; simp [h], ?_⟩
    exact size_erase_of_not_mem st key h
  · intro v h
    have hs : (st.lookup key).isSome = true := by
      show (ProcessState.get st key).isSome = true
      rw [h]
      rfl
    refine ⟨by simp [ProcessState.remove, hs], size_erase_of_mem st key hs⟩
  · simp [handle_remove, hk]
  · intro hEq
    have hL := congrArg String.length hEq
    rw [String.length_append, String.length_append, String.length_append] at hL
    have e1 : ("Successfully removed ").length = 21 := rfl
    have e2 : ("Key ").length = 4 := rfl
    have e3 : (" not found").length = 10 := rfl
    rw [e1, e2, e3] at hL
    omega

/-- Witness for C8: removing the present key "k" from a one-entry store. -/
theorem C8_remove_semantics_witness :
    (ProcessState.remove ((∅ : Store).insert "k" "v") "k").1 = true ∧
    ProcessState.size (ProcessState.remove ((∅ : Store).insert "k" "v") "k").2 + 1 =
      ProcessState.size ((∅ : Store).insert "k" "v") :=
  (C8_remove_semantics ((∅ : Store).insert "k" "v") "k"
    ⟨none, some "s", none, none, none, none, some [("Action", "Remove"), ("Key", "k")],
      none, none, none⟩ rfl).2.1 "v" rfl

/-- C9: after clear the store size is 0, and clear is idempotent — a second
clear leaves the same state and the Clear handler produces the same result
on the cleared store as on the original. -/
theorem C9_clear_idempotent (st : Store) (msg : AOMessage) :
    ProcessState.size (ProcessState.clear st) = 0 ∧
    ProcessState.clear (ProcessState.clear st) = ProcessState.clear st ∧
    handle_clear msg (ProcessState.clear st) = handle_clear msg st :=
  ⟨rfl, rfl, rfl⟩

/-- C10: dispatching any message whose action is not Set, Remove or Clear —
that is Info, Get, List, an unrecognized action, or a missing Action tag —
leaves the store mapping exactly as it was. -/
theorem C10_readonly_actions_frame (msg : AOMessage) (st : Store)
    (h : ∀ a, msg.tag "Action" = some a → a ≠ "Set" ∧ a ≠ "Remove" ∧ a ≠ "Clear") :
    (dispatch msg st).2 = st := by
  unfold dispatch handle_message
  cases ha : msg.tag "Action" with
  | none => rfl
  | some a =>
    dsimp only
    obtain ⟨hS, hR, hC⟩ := h a ha
    by_cases hI : a = "Info"
    · subst hI
      rfl
    by_cases hG : a = "Get"
    · subst hG
      rw [if_neg (by decide), if_neg (by decide), if_pos rfl]
      unfold handle_get
      cases hk2 : msg.tag "Key" <;> rfl
    by_cases hL : a = "List"
    · subst hL
      rfl
    rw [if_neg hI, if_neg hS, if_neg hG, if_neg hL, if_neg hR, if_neg hC]

/-- Witness for C10: an Info message over a one-entry store. -/
theorem C10_readonly_actions_frame_witness :
    (dispatch ⟨none, some "s", none, none, none, none, some [("Action", "Info")],
        none, none, none⟩ ((∅ : Store).insert "k" "v")).2 = (∅ : Store).insert "k" "v" :=
  C10_readonly_actions_frame _ _ (fun a ha => by
    have ha2 : some "Info" = some a := ha
    injection ha2 with h2
    subst h2
    exact ⟨by decide, by decide, by decide⟩)

end Harlequin
